import Mathlib

/-
Verification of the raster-to-GeoJSON core of the flood-web repository
(src/glofas.py), shallowly embedded in Lean 4.

Floating-point discharge values are modelled as `FVal` (finite rationals
plus the non-finite values NaN/±inf); numpy float arithmetic is modelled
exactly over ℚ.  Sorting inside the quantile computation is modelled with
`List.insertionSort`, which produces the same ascending order statistics
as numpy's sort.  Python's banker's rounding (round half to even) is
modelled exactly by `roundHalfEven`.
-/

/-- Model of a Python/numpy float value: a finite rational, or NaN, or
positive/negative infinity. -/
inductive FVal where
  | nan : FVal
  | inf : FVal
  | ninf : FVal
  | fin : ℚ → FVal
deriving DecidableEq, Repr

/-- Model of numpy isfinite. -/
def FVal.isfinite : FVal → Bool
  | .fin _ => true
  | _ => false

/-- The filter predicate of src/glofas.py line 120:
numpy isfinite(v) and v greater than 0.  Only a finite value compares
both finite and positive. -/
def posFinite : FVal → Bool
  | .fin q => decide (0 < q)
  | _ => false

/-- The filtered positive set of src/glofas.py line 120:
values[isfinite(values) and (values gt 0)], flattened in order. -/
def posValues (values : List FVal) : List ℚ :=
  values.filterMap fun v =>
    match v with
    | .fin q => if 0 < q then some q else none
    | _ => none

/-- Linear interpolation between order statistics of an (already sorted)
list, at fractional index h, exactly as numpy quantile's default
"linear" method: i = floor(h), result = s[i] + (h - i) * (s[i+1] - s[i]).
When i+1 is past the end the default makes the second term vanish, which
matches numpy (there h has zero fractional part). -/
def interp (s : List ℚ) (h : ℚ) : ℚ :=
  s.getD (⌊h⌋).toNat 0 +
    (h - ((⌊h⌋).toNat : ℚ)) *
      (s.getD ((⌊h⌋).toNat + 1) (s.getD (⌊h⌋).toNat 0) -
        s.getD (⌊h⌋).toNat 0)

/-- Model of numpy quantile with the default linear interpolation:
sort ascending, then interpolate at h = p * (n - 1). -/
def quantile (xs : List ℚ) (p : ℚ) : ℚ :=
  interp (List.insertionSort (· ≤ ·) xs) (p * ((xs.length : ℚ) - 1))

/-- src/glofas.py lines 114-128: quantile-based thresholds.  Filters to
finite strictly positive values; on an empty filtered set returns the
defaults (1, 5, 10); otherwise the 55th/85th/98th percentiles. -/
def compute_thresholds (values : List FVal) : ℚ × ℚ × ℚ :=
  let positive := posValues values
  if positive.isEmpty then (1, 5, 10)
  else (quantile positive (55 / 100), quantile positive (85 / 100),
        quantile positive (98 / 100))

/-- src/glofas.py lines 131-147: map one discharge value to
(risk_level, risk_color); None for non-finite or non-positive input.
A non-finite value fails the isfinite guard on line 137, so only the
finite branch reaches the comparisons. -/
def classify_point (discharge : FVal) (q2 q5 q20 : ℚ) :
    Option (String × String) :=
  match discharge with
  | .fin d =>
    if d ≤ 0 then none
    else if q20 ≤ d then some ("20", "purple")
    else if q5 ≤ d then some ("5", "red")
    else if q2 ≤ d then some ("2", "orange")
    else some ("1", "gray")
  | _ => none

/-- Python round to integer: round half to even (banker's rounding). -/
def roundHalfEven (x : ℚ) : ℤ :=
  let f : ℤ := ⌊x⌋
  let r : ℚ := x - (f : ℚ)
  if r < 1 / 2 then f
  else if 1 / 2 < r then f + 1
  else if f % 2 = 0 then f
  else f + 1

/-- Python round(x, 2): round to 2 decimal places, ties to even. -/
def round2 (x : ℚ) : ℚ := ((roundHalfEven (x * 100) : ℤ) : ℚ) / 100

/-- Z component of the cross product (b - a) x (p - a); zero iff a, b, p
are collinear. -/
def crossZ (a b p : ℚ × ℚ) : ℚ :=
  (b.1 - a.1) * (p.2 - a.2) - (b.2 - a.2) * (p.1 - a.1)

/-- Point p lies on the closed segment from a to b. -/
def onSegment (a b p : ℚ × ℚ) : Bool :=
  decide (crossZ a b p = 0 ∧ min a.1 b.1 ≤ p.1 ∧ p.1 ≤ max a.1 b.1 ∧
    min a.2 b.2 ≤ p.2 ∧ p.2 ≤ max a.2 b.2)

/-- Consecutive edges of a closed ring (stored GeoJSON-style with the
first vertex repeated at the end, as in gia_lai_boundary.geojson). -/
def edges (r : List (ℚ × ℚ)) : List ((ℚ × ℚ) × (ℚ × ℚ)) :=
  r.zip r.tail

/-- Point p lies exactly on the boundary ring r. -/
def onBoundary (r : List (ℚ × ℚ)) (p : ℚ × ℚ) : Bool :=
  (edges r).any fun e => onSegment e.1 e.2 p

/-- One step of the standard even-odd ray-casting test: the horizontal
ray from p to the right crosses the open edge (a, b). -/
def rayCrosses (a b p : ℚ × ℚ) : Bool :=
  (decide (p.2 < a.2) != decide (p.2 < b.2)) &&
    decide (p.1 < a.1 + (b.1 - a.1) * (p.2 - a.2) / (b.2 - a.2))

/-- Even-odd (ray casting) parity of point p with respect to ring r; for
points not on the boundary this is interior membership of a simple
polygon. -/
def evenOddInside (r : List (ℚ × ℚ)) (p : ℚ × ℚ) : Bool :=
  (edges r).foldl (fun acc e => if rayCrosses e.1 e.2 p then !acc else acc)
    false

/-- Model of the shapely predicate polygon.contains(point) used on
src/glofas.py line 235: true iff the point lies in the INTERIOR of the
polygon.  Per shapely's DE-9IM semantics a point exactly on the boundary
ring is NOT contained. -/
def polyContains (r : List (ℚ × ℚ)) (p : ℚ × ℚ) : Bool :=
  !(onBoundary r p) && evenOddInside r p

/-- Modelled from the spec: "Boundary-inclusive containment: a
point-in-polygon test where points exactly on the boundary ring count as
inside."  The containment library (shapely) is not part of src/; this
predicate follows the spec's words and is compared with the code's
strict-interior test polyContains in claim C1. -/
def coversInclusive (r : List (ℚ × ℚ)) (p : ℚ × ℚ) : Bool :=
  onBoundary r p || evenOddInside r p

/-- One output feature of src/glofas.py lines 246-257: a Polygon
geometry (list of rings, each a list of (lon, lat) pairs) plus the
discharge / risk_level / risk_color properties. -/
structure Feature where
  coordinates : List (List (ℚ × ℚ))
  discharge : ℚ
  risk_level : String
  risk_color : String
deriving DecidableEq, Repr

/-- The output FeatureCollection (src/glofas.py lines 260-263). -/
structure FeatureCollection where
  features : List Feature
deriving DecidableEq, Repr

/-- The body of the cell loop, src/glofas.py lines 218-258, for one index
pair (i, j): classify the node value values[i][j]; on None skip; with a
boundary configured, skip unless the bounding-box center of the cell is
contained (shapely contains, i.e. strictly inside); otherwise emit the
closed 5-vertex ring with the rounded discharge.  The outer match names
the rational payload d of a finite value; classify_point rejects every
non-finite value, so the catch-all branch agrees with the code. -/
def cellFeature (values : List (List FVal)) (lat lon : List ℚ)
    (q2 q5 q20 : ℚ) (boundary : Option (List (ℚ × ℚ))) (i j : ℕ) :
    Option Feature :=
  match (values.getD i []).getD j FVal.nan with
  | FVal.fin d =>
    match classify_point (FVal.fin d) q2 q5 q20 with
    | none => none
    | some rc =>
      let lonLeft := lon.getD j 0
      let lonRight := lon.getD (j + 1) 0
      let latTop := lat.getD i 0
      let latBottom := lat.getD (i + 1) 0
      let keep : Bool :=
        match boundary with
        | none => true
        | some r =>
          polyContains r ((lonLeft + lonRight) / 2, (latTop + latBottom) / 2)
      if keep then
        some { coordinates := [[(lonLeft, latTop), (lonRight, latTop),
                 (lonRight, latBottom), (lonLeft, latBottom),
                 (lonLeft, latTop)]],
               discharge := round2 d,
               risk_level := rc.1,
               risk_color := rc.2 }
      else none
  | _ => none

/-- The full cell loop of src/glofas.py lines 213-258: i over
range(n_lat - 1), j over range(n_lon - 1), row-major, collecting the
emitted features in order. -/
def buildFeatures (values : List (List FVal)) (lat lon : List ℚ)
    (q2 q5 q20 : ℚ) (boundary : Option (List (ℚ × ℚ))) : List Feature :=
  (List.range (lat.length - 1)).flatMap fun i =>
    (List.range (lon.length - 1)).filterMap fun j =>
      cellFeature values lat lon q2 q5 q20 boundary i j

/-- A named variable of the data cube: its dimension list (name, size)
and its spatial payload, the 2D field of node values that remains when
dimension reduction succeeds. -/
structure DataArray where
  dims : List (String × ℕ)
  field : List (List FVal)
deriving DecidableEq, Repr

/-- The opened dataset: variables in declaration order plus the two 1D
coordinate arrays (resolved from their accepted spellings). -/
structure Cube where
  data_vars : List (String × DataArray)
  lat : List ℚ
  lon : List ℚ
deriving DecidableEq, Repr

/-- The two fatal failures of the pipeline: list(ds.data_vars)[0] on an
empty dict (src/glofas.py line 106) and the RuntimeError of line 206. -/
inductive PipelineError where
  | noVariables : PipelineError
  | shapeMismatch : ℕ → PipelineError
deriving DecidableEq, Repr

instance : DecidableEq (Except PipelineError FeatureCollection) := fun x y =>
  match x, y with
  | .error a, .error b =>
    if h : a = b then isTrue (by rw [h]) else isFalse (by simp [h])
  | .ok a, .ok b =>
    if h : a = b then isTrue (by rw [h]) else isFalse (by simp [h])
  | .error _, .ok _ => isFalse (by simp)
  | .ok _, .error _ => isFalse (by simp)

/-- The candidate variable names of src/glofas.py lines 95-99, most
preferred first. -/
def candidates : List String :=
  ["river_discharge_in_the_last_24_hours", "dis24", "dis"]

/-- Walk the candidate list and return the first variable of the cube
whose name matches (src/glofas.py lines 101-104). -/
def findVar (vars : List (String × DataArray)) :
    List String → Option (String × DataArray)
  | [] => none
  | c :: cs =>
    match vars.find? (fun v => v.1 == c) with
    | some v => some v
    | none => findVar vars cs

/-- src/glofas.py lines 94-108: first matching candidate, else the first
declared variable with a fallback warning (the Bool flag), else failure
on an empty cube. -/
def choose_variable (vars : List (String × DataArray)) :
    Except PipelineError ((String × DataArray) × Bool) :=
  match findVar vars candidates with
  | some v => .ok (v, false)
  | none =>
    match vars with
    | [] => .error .noVariables
    | v :: _ => .ok (v, true)

/-- The accepted spellings of the spatial axes (src/glofas.py line
186). -/
def spatialNames : List String := ["latitude", "lat", "longitude", "lon"]

/-- Dimension reduction, src/glofas.py lines 170-189: lead-time
selection removes the step dimension (both the sel(step=24) and the
isel(step=0) paths drop it), then every non-spatial singleton dimension
is dropped.  A dimension survives iff it is spatial or has size other
than 1. -/
def reduceDims (dims : List (String × ℕ)) : List (String × ℕ) :=
  (dims.filter fun d => d.1 != "step").filter fun d =>
    decide (d.1 ∈ spatialNames) || (d.2 != 1)

/-- src/glofas.py lines 153-266: the whole pipeline.  Variable
selection, dimension reduction, the 2D shape check (line 205 raises iff
the reduced rank differs from 2), thresholds from the flattened field,
then the cell loop.  The boundary polygon (the process-wide
GIA_LAI_POLYGON, or None when the file is absent) is passed in
explicitly. -/
def gribToGeojson (cube : Cube) (boundary : Option (List (ℚ × ℚ))) :
    Except PipelineError FeatureCollection :=
  match choose_variable cube.data_vars with
  | .error e => .error e
  | .ok (v, _) =>
    let dims := reduceDims v.2.dims
    if dims.length ≠ 2 then .error (.shapeMismatch dims.length)
    else
      let t := compute_thresholds v.2.field.flatten
      .ok { features :=
        buildFeatures v.2.field cube.lat cube.lon t.1 t.2.1 t.2.2 boundary }

/-- Whether the cube declares a variable named c (ds.data_vars
membership, src/glofas.py line 102). -/
def present (vars : List (String × DataArray)) (c : String) : Bool :=
  vars.any fun v => v.1 == c

/-- The 2D field of the spec's end-to-end example:
[[0.5, 12.0], [3.0, 0.1]]. -/
def exField : List (List FVal) :=
  [[FVal.fin (1 / 2), FVal.fin 12], [FVal.fin 3, FVal.fin (1 / 10)]]

/-- The cube of the spec's end-to-end example: latitude [15.0, 14.9],
longitude [107.0, 107.1], one variable named dis24 carrying the field. -/
def exCube : Cube :=
  { data_vars := [("dis24",
      { dims := [("latitude", 2), ("longitude", 2)], field := exField })],
    lat := [15, 149 / 10], lon := [107, 1071 / 10] }

/-- A concrete closed square boundary ring with corners (0,0) and
(2,2), stored GeoJSON-style with the first vertex repeated. -/
def sqRing : List (ℚ × ℚ) := [(0, 0), (2, 0), (2, 2), (0, 2), (0, 0)]

/-- A constant 2x2 field with value 5 at every node. -/
def fiveField : List (List FVal) :=
  [[FVal.fin 5, FVal.fin 5], [FVal.fin 5, FVal.fin 5]]

/-- The single feature the pipeline emits for the end-to-end example
cube. -/
def exFeature : Feature :=
  { coordinates := [[(107, 15), (1071 / 10, 15), (1071 / 10, 149 / 10),
      (107, 149 / 10), (107, 15)]],
    discharge := 1 / 2, risk_level := "1", risk_color := "gray" }

/-- A variable with an empty payload, used to exercise the selector. -/
def fooVar : DataArray := { dims := [], field := [] }

/-- A variable whose dimension list reduces to rank 1, used to exercise
the shape check. -/
def badVar : DataArray := { dims := [("latitude", 3)], field := [] }

/-- A cube whose only variable is named dis and reduces to rank 1. -/
def badCube : Cube :=
  { data_vars := [("dis", badVar)], lat := [], lon := [] }

theorem getD_default_irrel (s : List ℚ) (k : ℕ) (d d' : ℚ)
    (hk : k < s.length) : s.getD k d = s.getD k d' := by
  rw [List.getD_eq_getElem s d hk, List.getD_eq_getElem s d' hk]

theorem sorted_getD_le (s : List ℚ) (hs : List.Sorted (· ≤ ·) s) {i j : ℕ}
    (hij : i ≤ j) (hj : j < s.length) : s.getD i 0 ≤ s.getD j 0 := by
  have hi : i < s.length := lt_of_le_of_lt hij hj
  rw [List.getD_eq_getElem s 0 hi, List.getD_eq_getElem s 0 hj]
  rcases eq_or_lt_of_le hij with rfl | h
  · exact le_refl _
  · exact List.pairwise_iff_getElem.mp hs i j hi hj h

theorem toNat_floor_le (h : ℚ) (h0 : 0 ≤ h) : ((⌊h⌋.toNat : ℚ)) ≤ h := by
  have h2 : ((⌊h⌋.toNat : ℤ) : ℚ) = ((⌊h⌋ : ℤ) : ℚ) := by
    exact_mod_cast congrArg (fun z : ℤ => (z : ℚ))
      (Int.toNat_of_nonneg (Int.floor_nonneg.mpr h0))
  have h3 : ((⌊h⌋.toNat : ℚ)) = ((⌊h⌋ : ℤ) : ℚ) := by push_cast at h2 ⊢; exact h2
  rw [h3]; exact Int.floor_le h

theorem lt_toNat_floor_add_one (h : ℚ) (h0 : 0 ≤ h) :
    h < ((⌊h⌋.toNat : ℚ)) + 1 := by
  have h2 : ((⌊h⌋.toNat : ℤ) : ℚ) = ((⌊h⌋ : ℤ) : ℚ) := by
    exact_mod_cast congrArg (fun z : ℤ => (z : ℚ))
      (Int.toNat_of_nonneg (Int.floor_nonneg.mpr h0))
  have h3 : ((⌊h⌋.toNat : ℚ)) = ((⌊h⌋ : ℤ) : ℚ) := by push_cast at h2 ⊢; exact h2
  rw [h3]; exact Int.lt_floor_add_one h

theorem interp_nonneg (s : List ℚ) (hpos : ∀ x ∈ s, 0 ≤ x) (h : ℚ)
    (h0 : 0 ≤ h) : 0 ≤ interp s h := by
  unfold interp
  set i : ℕ := (⌊h⌋).toNat with hidef
  set a : ℚ := s.getD i 0 with hadef
  set b : ℚ := s.getD (i + 1) a with hbdef
  have hgl : 0 ≤ h - (i : ℚ) := sub_nonneg.mpr (toNat_floor_le h h0)
  have hgu : h - (i : ℚ) ≤ 1 := by
    have := lt_toNat_floor_add_one h h0
    linarith
  have ha : 0 ≤ a := by
    rcases lt_or_ge i s.length with hlt | hge
    · rw [hadef, List.getD_eq_getElem s 0 hlt]
      exact hpos _ (List.getElem_mem hlt)
    · rw [hadef, List.getD_eq_default s 0 hge]
  have hb : 0 ≤ b := by
    rcases lt_or_ge (i + 1) s.length with hlt | hge
    · rw [hbdef, List.getD_eq_getElem s a hlt]
      exact hpos _ (List.getElem_mem hlt)
    · rw [hbdef, List.getD_eq_default s a hge]; exact ha
  have t1 : 0 ≤ (1 - (h - (i : ℚ))) * a :=
    mul_nonneg (by linarith) ha
  have t2 : 0 ≤ (h - (i : ℚ)) * b := mul_nonneg hgl hb
  nlinarith [t1, t2]

theorem interp_mono (s : List ℚ) (hs : List.Sorted (· ≤ ·) s) {h h' : ℚ}
    (h0 : 0 ≤ h) (hhh : h ≤ h') (hn : h' ≤ (s.length : ℚ) - 1) :
    interp s h ≤ interp s h' := by
  have h0' : 0 ≤ h' := le_trans h0 hhh
  unfold interp
  set i : ℕ := (⌊h⌋).toNat with hidef
  set i' : ℕ := (⌊h'⌋).toNat with hpi'
  have hiq : (i : ℚ) ≤ h := toNat_floor_le h h0
  have hiq1 : h < (i : ℚ) + 1 := lt_toNat_floor_add_one h h0
  have hi'q : (i' : ℚ) ≤ h' := toNat_floor_le h' h0'
  have hii' : i ≤ i' :=
    Int.toNat_le_toNat (Int.floor_le_floor hhh)
  have hi'n : i' < s.length := by
    have hle : (i' : ℚ) + 1 ≤ (s.length : ℚ) := by linarith
    exact_mod_cast Nat.lt_of_lt_of_le (Nat.lt_succ_self i')
      (by exact_mod_cast hle)
  set a : ℚ := s.getD i 0 with hadef
  set b : ℚ := s.getD (i + 1) a with hbdef
  set a' : ℚ := s.getD i' 0 with hpa'
  set b' : ℚ := s.getD (i' + 1) a' with hpb'
  have hab : a ≤ b := by
    rcases lt_or_ge (i + 1) s.length with hlt | hge
    · rw [hbdef, getD_default_irrel s (i + 1) a 0 hlt]
      exact sorted_getD_le s hs (Nat.le_succ i) hlt
    · rw [hbdef, List.getD_eq_default s a hge]
  have ha'b' : a' ≤ b' := by
    rcases lt_or_ge (i' + 1) s.length with hlt | hge
    · rw [hpb', getD_default_irrel s (i' + 1) a' 0 hlt]
      exact sorted_getD_le s hs (Nat.le_succ i') hlt
    · rw [hpb', List.getD_eq_default s a' hge]
  rcases Nat.eq_or_lt_of_le hii' with heq | hlt
  · have hsame : a = a' := by rw [hadef, hpa', heq]
    have hsame2 : b = b' := by rw [hbdef, hpb', heq, hsame]
    rw [← heq, ← hsame ] at *
    rw [← hsame2]
    have hd : 0 ≤ b - a := sub_nonneg.mpr hab
    have hg : h - (i : ℚ) ≤ h' - (i : ℚ) := by linarith
    have := mul_le_mul_of_nonneg_right hg hd
    linarith
  · have hi1n : i + 1 < s.length := lt_of_le_of_lt hlt hi'n
    have hbeq : b = s.getD (i + 1) 0 := by
      rw [hbdef, getD_default_irrel s (i + 1) a 0 hi1n]
    have step1 : a + (h - (i : ℚ)) * (b - a) ≤ b := by
      have hd : 0 ≤ b - a := sub_nonneg.mpr hab
      have hg : h - (i : ℚ) ≤ 1 := by linarith
      have := mul_le_mul_of_nonneg_right hg hd
      linarith
    have step2 : b ≤ a' := by
      rw [hbeq, hpa']
      exact sorted_getD_le s hs hlt hi'n
    have step3 : a' ≤ a' + (h' - (i' : ℚ)) * (b' - a') := by
      have hd : 0 ≤ b' - a' := sub_nonneg.mpr ha'b'
      have hg : 0 ≤ h' - (i' : ℚ) := by linarith
      nlinarith [mul_nonneg hg hd]
    linarith

theorem mem_posValues_pos (values : List FVal) : ∀ x ∈ posValues values, 0 < x := by
  intro x hx
  unfold posValues at hx
  rw [List.mem_filterMap] at hx
  obtain ⟨v, _, hveq⟩ := hx
  cases v with
  | fin q =>
    by_cases hq : 0 < q
    · simp only [hq, if_true] at hveq
      have : q = x := by exact Option.some.inj hveq
      rw [← this]; exact hq
    · simp [hq] at hveq
  | nan => simp at hveq
  | inf => simp at hveq
  | ninf => simp at hveq

theorem quantile_nonneg (xs : List ℚ) (hpos : ∀ x ∈ xs, 0 ≤ x) (p : ℚ)
    (hp : 0 ≤ p) (hxs : xs ≠ []) : 0 ≤ quantile xs p := by
  unfold quantile
  apply interp_nonneg
  · intro x hx
    exact hpos x (((List.perm_insertionSort (· ≤ ·) xs).mem_iff).mp hx)
  · have h1 : 0 < xs.length := List.length_pos.mpr hxs
    have h1' : (1 : ℚ) ≤ (xs.length : ℚ) := by exact_mod_cast h1
    have : (0 : ℚ) ≤ (xs.length : ℚ) - 1 := by linarith
    exact mul_nonneg hp this

theorem quantile_mono (xs : List ℚ) (hxs : xs ≠ []) {p p' : ℚ}
    (hp : 0 ≤ p) (hpp : p ≤ p') (hp1 : p' ≤ 1) :
    quantile xs p ≤ quantile xs p' := by
  have h1 : 0 < xs.length := List.length_pos.mpr hxs
  have h1' : (1 : ℚ) ≤ (xs.length : ℚ) := by exact_mod_cast h1
  have hnn : (0 : ℚ) ≤ (xs.length : ℚ) - 1 := by linarith
  unfold quantile
  apply interp_mono _ (List.sorted_insertionSort _ _)
  · exact mul_nonneg hp hnn
  · exact mul_le_mul_of_nonneg_right hpp hnn
  · rw [List.length_insertionSort]
    calc p' * ((xs.length : ℚ) - 1) ≤ 1 * ((xs.length : ℚ) - 1) :=
          mul_le_mul_of_nonneg_right hp1 hnn
      _ = (xs.length : ℚ) - 1 := one_mul _

/-- C3: for every input field, the threshold triple (q2, q5, q20)
returned by compute_thresholds satisfies 0 ≤ q2 ≤ q5 ≤ q20: with at
least one finite strictly positive value this follows from monotonicity
of the linearly interpolated 55th/85th/98th percentiles of the filtered
positive set, and otherwise from the defaults (1, 5, 10). -/
theorem C3_thresholds_ordered (values : List FVal) :
    0 ≤ (compute_thresholds values).1 ∧
    (compute_thresholds values).1 ≤ (compute_thresholds values).2.1 ∧
    (compute_thresholds values).2.1 ≤ (compute_thresholds values).2.2 := by
  unfold compute_thresholds
  by_cases hemp : (posValues values).isEmpty = true
  · simp only [hemp, if_true]
    norm_num
  · simp only [hemp, if_false, Bool.false_eq_true]
    have hne : posValues values ≠ [] := by
      intro hnil
      rw [hnil] at hemp
      simp at hemp
    have hpos0 : ∀ x ∈ posValues values, 0 ≤ x :=
      fun x hx => le_of_lt (mem_posValues_pos values x hx)
    refine ⟨?_, ?_, ?_⟩
    · exact quantile_nonneg _ hpos0 _ (by norm_num) hne
    · exact quantile_mono _ hne (by norm_num) (by norm_num) (by norm_num)
    · exact quantile_mono _ hne (by norm_num) (by norm_num) (by norm_num)

set_option maxRecDepth 100000 in
/-- C4: on the unclipped example field [[0.5, 12.0], [3.0, 0.1]] with
latitude [15.0, 14.9] and longitude [107.0, 107.1], the thresholds are
the 55th/85th/98th percentiles of the positive set {0.5, 12.0, 3.0, 0.1}
(namely 2.125, 7.95, 11.46), and the pipeline emits exactly one feature:
ring [[107,15],[107.1,15],[107.1,14.9],[107,14.9],[107,15]], discharge
0.5 (the node value at (0,0)), and risk_level "1" / risk_color "gray"
because 0.5 is below the computed q2 = 2.125. -/
theorem C4_end_to_end :
    compute_thresholds exField.flatten = (17 / 8, 159 / 20, 573 / 50) ∧
    compute_thresholds exField.flatten =
      (quantile (posValues exField.flatten) (55 / 100),
       quantile (posValues exField.flatten) (85 / 100),
       quantile (posValues exField.flatten) (98 / 100)) ∧
    gribToGeojson exCube none = Except.ok { features := [
      { coordinates := [[(107, 15), (1071 / 10, 15),
          (1071 / 10, 149 / 10), (107, 149 / 10), (107, 15)]],
        discharge := 1 / 2, risk_level := "1", risk_color := "gray" }] } := by
  refine ⟨?_, ?_, ?_⟩ <;> with_unfolding_all decide

/-- C6: for a finite strictly positive discharge d, classify_point
returns tier "20"/purple iff d ≥ q20, tier "5"/red iff q5 ≤ d < q20,
tier "2"/orange iff q2 ≤ d and d is below q5 and q20, and tier "1"/gray
iff d is below all three thresholds — severity checked highest first
with ties at a threshold resolved upward because comparisons are ≥; for
every non-finite or non-positive value it returns no classification. -/
theorem C6_classification (d q2 q5 q20 : ℚ) (hd : 0 < d) :
    (classify_point (FVal.fin d) q2 q5 q20 = some ("20", "purple") ↔
      q20 ≤ d) ∧
    (classify_point (FVal.fin d) q2 q5 q20 = some ("5", "red") ↔
      q5 ≤ d ∧ ¬ q20 ≤ d) ∧
    (classify_point (FVal.fin d) q2 q5 q20 = some ("2", "orange") ↔
      q2 ≤ d ∧ ¬ q5 ≤ d ∧ ¬ q20 ≤ d) ∧
    (classify_point (FVal.fin d) q2 q5 q20 = some ("1", "gray") ↔
      ¬ q2 ≤ d ∧ ¬ q5 ≤ d ∧ ¬ q20 ≤ d) ∧
    (∀ v : FVal, posFinite v = false → classify_point v q2 q5 q20 = none) := by
  have hnd : ¬ d ≤ 0 := not_le.mpr hd
  refine ⟨?_, ?_, ?_, ?_, ?_⟩
  · simp only [classify_point]
    split_ifs with h1 h2 h3 <;> simp_all
  · simp only [classify_point]
    split_ifs with h1 h2 h3 <;> simp_all
  · simp only [classify_point]
    split_ifs with h1 h2 h3 <;> simp_all
  · simp only [classify_point]
    split_ifs with h1 h2 h3 <;> simp_all
  · intro v hv
    cases v with
    | fin q =>
      unfold posFinite at hv
      have hq : ¬ 0 < q := by simpa using hv
      unfold classify_point
      simp [not_lt.mp hq, le_of_not_lt hq]
    | nan => rfl
    | inf => rfl
    | ninf => rfl

/-- C6 witness: at d = 5 with thresholds (1, 2, 3) the classifier
returns tier "20" with color purple. -/
theorem C6_classification_witness :
    classify_point (FVal.fin 5) 1 2 3 = some ("20", "purple") :=
  (C6_classification 5 1 2 3 (by norm_num)).1.mpr (by norm_num)

/-- C7: compute_thresholds is total and never fails: whenever the
filtered finite-positive set is empty (all-NaN, all-zero, all-negative
or empty input) it returns exactly the defaults (1, 5, 10), and
otherwise its result depends only on the filtered finite-positive
values. -/
theorem C7_thresholds_total (values : List FVal) :
    (posValues values = [] → compute_thresholds values = (1, 5, 10)) ∧
    (∀ values' : List FVal, posValues values = posValues values' →
      compute_thresholds values = compute_thresholds values') := by
  constructor
  · intro h
    unfold compute_thresholds
    rw [h]
    rfl
  · intro values' h
    unfold compute_thresholds
    rw [h]

/-- C7 witness: a field containing only a NaN, a zero and a negative
entry filters to the empty set and yields the default thresholds. -/
theorem C7_thresholds_total_witness :
    compute_thresholds [FVal.nan, FVal.fin 0, FVal.fin (-3)] = (1, 5, 10) :=
  (C7_thresholds_total [FVal.nan, FVal.fin 0, FVal.fin (-3)]).1
    (by with_unfolding_all decide)

/-- C2: a cell whose representative node value is non-finite (NaN/inf)
or not strictly positive produces no feature at all, with or without a
region boundary configured; buildFeatures is exactly the filterMap of
cellFeature over the interior cells, so a none cell is fully omitted
from the output collection. -/
theorem C2_nonpositive_omitted (values : List (List FVal)) (lat lon : List ℚ)
    (q2 q5 q20 : ℚ) (boundary : Option (List (ℚ × ℚ))) (i j : ℕ)
    (_hi : i + 1 < lat.length) (_hj : j + 1 < lon.length)
    (hv : posFinite ((values.getD i []).getD j FVal.nan) = false) :
    cellFeature values lat lon q2 q5 q20 boundary i j = none := by
  unfold cellFeature
  cases hval : (values.getD i []).getD j FVal.nan with
  | fin d =>
    rw [hval] at hv
    unfold posFinite at hv
    have hd : ¬ 0 < d := by simpa using hv
    simp [classify_point, not_lt.mp hd]
  | nan => rfl
  | inf => rfl
  | ninf => rfl

/-- C2 witness: the zero-valued node at (0, 0) of a 2x2 grid emits no
feature. -/
theorem C2_nonpositive_omitted_witness :
    cellFeature [[FVal.fin 0, FVal.nan], [FVal.fin 1, FVal.fin 1]]
      [1, 0] [0, 1] 1 2 3 none 0 0 = none :=
  C2_nonpositive_omitted [[FVal.fin 0, FVal.nan], [FVal.fin 1, FVal.fin 1]]
    [1, 0] [0, 1] 1 2 3 none 0 0 (by norm_num) (by norm_num)
    (by with_unfolding_all decide)

theorem buildFeatures_nil (values : List (List FVal)) (lat lon : List ℚ)
    (q2 q5 q20 : ℚ) (b : Option (List (ℚ × ℚ)))
    (h : lat.length < 2 ∨ lon.length < 2) :
    buildFeatures values lat lon q2 q5 q20 b = [] := by
  rcases h with h | h
  · have hz : lat.length - 1 = 0 := by omega
    simp [buildFeatures, hz]
  · have hz : lon.length - 1 = 0 := by omega
    simp [buildFeatures, hz]

/-- C10: when either coordinate sequence has fewer than two entries, the
cell loops run zero iterations and the pipeline emits an empty feature
collection without error, regardless of the field's values or the
presence of a region boundary. -/
theorem C10_short_axes :
    (∀ (values : List (List FVal)) (lat lon : List ℚ) (q2 q5 q20 : ℚ)
        (b : Option (List (ℚ × ℚ))),
      lat.length < 2 ∨ lon.length < 2 →
      buildFeatures values lat lon q2 q5 q20 b = []) ∧
    (∀ (cube : Cube) (b : Option (List (ℚ × ℚ))) (fc : FeatureCollection),
      gribToGeojson cube b = Except.ok fc →
      cube.lat.length < 2 ∨ cube.lon.length < 2 → fc.features = []) := by
  constructor
  · exact fun values lat lon q2 q5 q20 b h =>
      buildFeatures_nil values lat lon q2 q5 q20 b h
  · intro cube b fc hok h
    unfold gribToGeojson at hok
    cases hcv : choose_variable cube.data_vars with
    | error e => rw [hcv] at hok; exact absurd hok (by simp)
    | ok v =>
      rw [hcv] at hok
      dsimp only at hok
      by_cases hdim : (reduceDims v.1.2.dims).length ≠ 2
      · rw [if_pos hdim] at hok
        exact absurd hok (by simp)
      · rw [if_neg hdim] at hok
        have hfc := Except.ok.inj hok
        rw [← hfc]
        exact buildFeatures_nil _ _ _ _ _ _ _ h

/-- C10 witness: a single-entry latitude axis yields an empty feature
list. -/
theorem C10_short_axes_witness :
    buildFeatures [[FVal.fin 5]] [15] [107, 108] 1 2 3 none = [] :=
  C10_short_axes.1 [[FVal.fin 5]] [15] [107, 108] 1 2 3 none
    (Or.inl (by norm_num))

/-- C5: every emitted feature comes from an adjacent index pair (i, j)
and consists of a single closed 5-vertex ring — top-left, top-right,
bottom-right, bottom-left, then the first vertex repeated — with
longitude before latitude in every pair and the first vertex equal to
the last, and its discharge property is the field value at node (i, j)
rounded to 2 decimals. -/
theorem C5_ring_and_discharge (values : List (List FVal)) (lat lon : List ℚ)
    (q2 q5 q20 : ℚ) (boundary : Option (List (ℚ × ℚ))) (f : Feature)
    (hf : f ∈ buildFeatures values lat lon q2 q5 q20 boundary) :
    ∃ i j, i < lat.length - 1 ∧ j < lon.length - 1 ∧
      f.coordinates = [[(lon.getD j 0, lat.getD i 0),
        (lon.getD (j + 1) 0, lat.getD i 0),
        (lon.getD (j + 1) 0, lat.getD (i + 1) 0),
        (lon.getD j 0, lat.getD (i + 1) 0),
        (lon.getD j 0, lat.getD i 0)]] ∧
      ∃ d : ℚ, (values.getD i []).getD j FVal.nan = FVal.fin d ∧
        f.discharge = round2 d := by
  unfold buildFeatures at hf
  rw [List.mem_flatMap] at hf
  obtain ⟨i, hi, hf⟩ := hf
  rw [List.mem_filterMap] at hf
  obtain ⟨j, hj, hcell⟩ := hf
  rw [List.mem_range] at hi
  rw [List.mem_range] at hj
  refine ⟨i, j, hi, hj, ?_⟩
  unfold cellFeature at hcell
  cases hval : (values.getD i []).getD j FVal.nan with
  | fin d =>
    rw [hval] at hcell
    dsimp only at hcell
    cases hcl : classify_point (FVal.fin d) q2 q5 q20 with
    | none => rw [hcl] at hcell; exact absurd hcell (by simp)
    | some rc =>
      rw [hcl] at hcell
      dsimp only at hcell
      split at hcell
      · have hrec := Option.some.inj hcell
        rw [← hrec]
        exact ⟨rfl, d, rfl, rfl⟩
      · exact absurd hcell (by simp)
  | nan => rw [hval] at hcell; exact absurd hcell (by simp)
  | inf => rw [hval] at hcell; exact absurd hcell (by simp)
  | ninf => rw [hval] at hcell; exact absurd hcell (by simp)

set_option maxRecDepth 100000 in
/-- C5 witness: the single feature of the end-to-end example has the
stated closed ring and the rounded node value 0.5. -/
theorem C5_ring_and_discharge_witness :
    ∃ i j, i < ([(15 : ℚ), 149 / 10]).length - 1 ∧
      j < ([(107 : ℚ), 1071 / 10]).length - 1 ∧
      exFeature.coordinates = [[(([(107 : ℚ), 1071 / 10]).getD j 0,
          ([(15 : ℚ), 149 / 10]).getD i 0),
        (([(107 : ℚ), 1071 / 10]).getD (j + 1) 0,
          ([(15 : ℚ), 149 / 10]).getD i 0),
        (([(107 : ℚ), 1071 / 10]).getD (j + 1) 0,
          ([(15 : ℚ), 149 / 10]).getD (i + 1) 0),
        (([(107 : ℚ), 1071 / 10]).getD j 0,
          ([(15 : ℚ), 149 / 10]).getD (i + 1) 0),
        (([(107 : ℚ), 1071 / 10]).getD j 0,
          ([(15 : ℚ), 149 / 10]).getD i 0)]] ∧
      ∃ d : ℚ, (exField.getD i []).getD j FVal.nan = FVal.fin d ∧
        exFeature.discharge = round2 d :=
  C5_ring_and_discharge exField [15, 149 / 10] [107, 1071 / 10]
    (17 / 8) (159 / 20) (573 / 50) none exFeature
    (by with_unfolding_all decide)

theorem find?_of_present (vars : List (String × DataArray)) (c : String)
    (h : present vars c = true) :
    ∃ w, vars.find? (fun v => v.1 == c) = some w ∧ w.1 = c ∧ w ∈ vars := by
  unfold present at h
  rw [List.any_eq_true] at h
  obtain ⟨x, hx, hpx⟩ := h
  have hs : (vars.find? (fun v => v.1 == c)).isSome := by
    rw [List.find?_isSome]
    exact ⟨x, hx, hpx⟩
  obtain ⟨w, hw⟩ := Option.isSome_iff_exists.mp hs
  refine ⟨w, hw, ?_, List.mem_of_find?_eq_some hw⟩
  have hp : (w.1 == c) = true := List.find?_some (p := fun v : String × DataArray => v.1 == c) hw
  exact eq_of_beq hp

theorem find?_none_of_absent (vars : List (String × DataArray)) (c : String)
    (h : present vars c = false) :
    vars.find? (fun v => v.1 == c) = none := by
  unfold present at h
  rw [List.any_eq_false] at h
  rw [List.find?_eq_none]
  intro x hx
  exact h x hx

/-- C9: choose_variable returns the first variable whose name matches
the candidate list (river_discharge_in_the_last_24_hours, dis24, dis) in
priority order with no fallback warning; when no candidate is declared
it returns the first variable in declaration order with the fallback
warning flag set; and it fails if and only if the cube declares zero
variables. -/
theorem C9_choose_variable (vars : List (String × DataArray)) :
    (choose_variable vars = .error .noVariables ↔ vars = []) ∧
    (present vars "river_discharge_in_the_last_24_hours" = true →
      ∃ w, choose_variable vars = .ok (w, false) ∧
        w.1 = "river_discharge_in_the_last_24_hours" ∧ w ∈ vars) ∧
    (present vars "river_discharge_in_the_last_24_hours" = false →
      present vars "dis24" = true →
      ∃ w, choose_variable vars = .ok (w, false) ∧ w.1 = "dis24" ∧ w ∈ vars) ∧
    (present vars "river_discharge_in_the_last_24_hours" = false →
      present vars "dis24" = false → present vars "dis" = true →
      ∃ w, choose_variable vars = .ok (w, false) ∧ w.1 = "dis" ∧ w ∈ vars) ∧
    (present vars "river_discharge_in_the_last_24_hours" = false →
      present vars "dis24" = false → present vars "dis" = false →
      ∀ v vs, vars = v :: vs → choose_variable vars = .ok (v, true)) := by
  refine ⟨?_, ?_, ?_, ?_, ?_⟩
  · constructor
    · intro h
      cases hv : vars with
      | nil => rfl
      | cons v vs =>
        subst hv
        unfold choose_variable at h
        cases hfv : findVar (v :: vs) candidates <;> rw [hfv] at h <;>
          simp at h
    · intro h
      subst h
      rfl
  · intro h
    obtain ⟨w, hw, hwc, hwm⟩ :=
      find?_of_present vars "river_discharge_in_the_last_24_hours" h
    refine ⟨w, ?_, hwc, hwm⟩
    have hfv : findVar vars candidates = some w := by
      simp only [candidates, findVar, hw]
    unfold choose_variable
    rw [hfv]
  · intro h1 h2
    have n1 := find?_none_of_absent vars "river_discharge_in_the_last_24_hours" h1
    obtain ⟨w, hw, hwc, hwm⟩ := find?_of_present vars "dis24" h2
    refine ⟨w, ?_, hwc, hwm⟩
    have hfv : findVar vars candidates = some w := by
      simp only [candidates, findVar, n1, hw]
    unfold choose_variable
    rw [hfv]
  · intro h1 h2 h3
    have n1 := find?_none_of_absent vars "river_discharge_in_the_last_24_hours" h1
    have n2 := find?_none_of_absent vars "dis24" h2
    obtain ⟨w, hw, hwc, hwm⟩ := find?_of_present vars "dis" h3
    refine ⟨w, ?_, hwc, hwm⟩
    have hfv : findVar vars candidates = some w := by
      simp only [candidates, findVar, n1, n2, hw]
    unfold choose_variable
    rw [hfv]
  · intro h1 h2 h3 v vs hcons
    subst hcons
    have n1 := find?_none_of_absent _ "river_discharge_in_the_last_24_hours" h1
    have n2 := find?_none_of_absent _ "dis24" h2
    have n3 := find?_none_of_absent _ "dis" h3
    have hfv : findVar (v :: vs) candidates = none := by
      simp only [candidates, findVar, n1, n2, n3]
    unfold choose_variable
    rw [hfv]

/-- C9 witness: a cube declaring only the unlisted variable name foo
still returns that variable, with the fallback warning flag set. -/
theorem C9_choose_variable_witness :
    choose_variable [("foo", fooVar)] = .ok (("foo", fooVar), true) :=
  (C9_choose_variable [("foo", fooVar)]).2.2.2.2 (by decide) (by decide)
    (by decide) ("foo", fooVar) [] rfl

/-- C8: once a variable is selected, the pipeline raises the fatal
shape-mismatch error if and only if the variable's dimension list after
lead-time selection and dropping of singleton non-spatial dimensions is
not exactly 2-dimensional; when the reduced rank is 2 no shape error is
raised and processing continues to a feature collection. -/
theorem C8_shape_error_iff (cube : Cube) (b : Option (List (ℚ × ℚ)))
    (v : (String × DataArray) × Bool)
    (hv : choose_variable cube.data_vars = .ok v) :
    ((∃ n, gribToGeojson cube b = .error (.shapeMismatch n)) ↔
      (reduceDims v.1.2.dims).length ≠ 2) ∧
    ((reduceDims v.1.2.dims).length = 2 →
      ∃ fc, gribToGeojson cube b = .ok fc) := by
  unfold gribToGeojson
  rw [hv]
  dsimp only
  by_cases hdim : (reduceDims v.1.2.dims).length ≠ 2
  · rw [if_pos hdim]
    refine ⟨⟨fun _ => hdim,
      fun _ => ⟨(reduceDims v.1.2.dims).length, rfl⟩⟩, ?_⟩
    intro h2
    exact absurd h2 hdim
  · rw [if_neg hdim]
    refine ⟨⟨?_, ?_⟩, ?_⟩
    · rintro ⟨n, hn⟩
      exact absurd hn (by simp)
    · intro h
      exact absurd h hdim
    · intro _
      exact ⟨_, rfl⟩

/-- C8 witness: a cube whose only variable has the single dimension
(latitude, 3) reduces to rank 1 and makes the pipeline fail with the
shape-mismatch error. -/
theorem C8_shape_error_iff_witness :
    ∃ n, gribToGeojson badCube none = .error (.shapeMismatch n) :=
  (C8_shape_error_iff badCube none (("dis", badVar), false) rfl).1.mpr
    (by decide)

/-- C1 counterexample: with the square boundary ring sqRing, a 2x2 grid
whose single cell has bounding-box center (1, 0) lying exactly on the
ring's bottom edge, and a positive classified node value, the center
counts as inside under the spec's boundary-inclusive semantics, yet the
code (shapely contains, boundary-exclusive) emits no feature at all: the
claim that such a cell is kept is false on the code. -/
theorem C1_boundary_counterexample :
    coversInclusive sqRing (1, 0) = true ∧
    onBoundary sqRing (1, 0) = true ∧
    classify_point (FVal.fin 5) 1 2 3 = some ("20", "purple") ∧
    cellFeature fiveField [1, -1] [0, 2] 1 2 3 (some sqRing) 0 0 = none ∧
    buildFeatures fiveField [1, -1] [0, 2] 1 2 3 (some sqRing) = [] := by
  refine ⟨?_, ?_, ?_, ?_, ?_⟩ <;> with_unfolding_all decide

/-- C1 amended: when a region boundary is configured, a cell's feature
is emitted only if the cell's bounding-box center (arithmetic mean of
left/right longitudes and of top/bottom latitudes) is STRICTLY inside
the boundary ring — the containment test is boundary-exclusive, so a
center lying exactly on the boundary ring is skipped, not kept. -/
theorem C1_strict_containment (values : List (List FVal)) (lat lon : List ℚ)
    (q2 q5 q20 : ℚ) (r : List (ℚ × ℚ)) (i j : ℕ) :
    (∀ f, cellFeature values lat lon q2 q5 q20 (some r) i j = some f →
      polyContains r ((lon.getD j 0 + lon.getD (j + 1) 0) / 2,
        (lat.getD i 0 + lat.getD (i + 1) 0) / 2) = true) ∧
    (onBoundary r ((lon.getD j 0 + lon.getD (j + 1) 0) / 2,
        (lat.getD i 0 + lat.getD (i + 1) 0) / 2) = true →
      cellFeature values lat lon q2 q5 q20 (some r) i j = none) := by
  constructor
  · intro f hf
    unfold cellFeature at hf
    cases hval : (values.getD i []).getD j FVal.nan with
    | fin d =>
      rw [hval] at hf
      dsimp only at hf
      cases hcl : classify_point (FVal.fin d) q2 q5 q20 with
      | none => rw [hcl] at hf; exact absurd hf (by simp)
      | some rc =>
        rw [hcl] at hf
        dsimp only at hf
        split at hf
        · assumption
        · exact absurd hf (by simp)
    | nan => rw [hval] at hf; exact absurd hf (by simp)
    | inf => rw [hval] at hf; exact absurd hf (by simp)
    | ninf => rw [hval] at hf; exact absurd hf (by simp)
  · intro hb
    unfold cellFeature
    cases hval : (values.getD i []).getD j FVal.nan with
    | fin d =>
      dsimp only
      cases hcl : classify_point (FVal.fin d) q2 q5 q20 with
      | none => rfl
      | some rc =>
        dsimp only
        have hpc : polyContains r
            ((lon.getD j 0 + lon.getD (j + 1) 0) / 2,
             (lat.getD i 0 + lat.getD (i + 1) 0) / 2) = false := by
          unfold polyContains
          rw [hb]
          rfl
        rw [hpc]
        rfl
    | nan => rfl
    | inf => rfl
    | ninf => rfl

/-- C1 witness for the amended claim: a cell whose center (1, 2) lies on
the top edge of sqRing is skipped even though its value is classified. -/
theorem C1_strict_containment_witness :
    cellFeature fiveField [3, 1] [0, 2] 1 2 3 (some sqRing) 0 0 = none :=
  (C1_strict_containment fiveField [3, 1] [0, 2] 1 2 3 sqRing 0 0).2
    (by with_unfolding_all decide)
